import Mathlib

/-!
Shallow embedding of `zofuthan/adhole` (`src/main.go`), a DNS interception
proxy.  Go strings are byte sequences, so domain names, blocklist entries
and wire messages are all modelled as `List Nat` of byte values; `46` is
the byte of the character dot.  Machine bytes are read through `% 256`
where a value is used as a `uint8`.
-/

namespace Adhole

/-! ### Blocklist matcher (main.go lines 252-267)

The Go code is

```
host := domain.String()
testHost := host
parts := strings.Split(testHost, ".")
try := 1
for {
    if _, ok := blocked[testHost]; ok {
        block = true
        break
    }
    parts = parts[1:]
    if len(parts) < 3 {
        break
    }
    testHost = strings.Join(parts, ".")
    try++
}
```

`strings.Split` on the single-byte separator "." is `List.splitOn 46` on
the byte list, and `strings.Join` is `List.intercalate [46]`.  Note that
for a trailing-dot domain the split parts end with an empty part, which
counts towards the `len(parts) < 3` test.
-/

/-- Go `strings.Split(s, ".")` on the byte representation of `s`. -/
def splitDot (bs : List Nat) : List (List Nat) :=
  List.splitOn 46 bs

/-- Go `strings.Join(parts, ".")` on the byte representation. -/
def joinDot (parts : List (List Nat)) : List Nat :=
  List.intercalate [46] parts

/-- Bytes of an ASCII string, for readable concrete domains in statements. -/
def bytesOfAscii (s : String) : List Nat :=
  s.toList.map Char.toNat

/-- The loop of main.go lines 256-267.  `parts` is the current slice,
`testHost` the string tested against the map `blocked`, `try_` the `try`
counter (it starts at 1 and is incremented once per stripping iteration).
`parts = parts[1:]` is the tail; the loop exits when fewer than 3 parts
remain (the trailing empty part included). -/
def matchLoop (blocked : List (List Nat)) :
    List (List Nat) → List Nat → Nat → Bool × Nat
  | parts, testHost, try_ =>
    if testHost ∈ blocked then (true, try_)
    else
      match parts with
      | [] => (false, try_)
      | _ :: parts' =>
        if parts'.length < 3 then (false, try_)
        else matchLoop blocked parts' (joinDot parts') (try_ + 1)

/-- Entry point of the matcher: `testHost := host`, `parts :=
strings.Split(host, ".")`, `try := 1` (main.go lines 253-255). -/
def isBlocked (blocked : List (List Nat)) (host : List Nat) : Bool × Nat :=
  matchLoop blocked (splitDot host) host 1

/-- Characterisation of the matcher loop: it accepts exactly when the
current `testHost` is listed, or the join of some tail of `parts` that
still has at least 3 parts is listed. -/
theorem matchLoop_iff (blocked : List (List Nat)) (parts : List (List Nat))
    (testHost : List Nat) (try_ : Nat) :
    (matchLoop blocked parts testHost try_).1 = true ↔
      testHost ∈ blocked ∨
        ∃ i, 1 ≤ i ∧ 3 ≤ (parts.drop i).length ∧
          joinDot (parts.drop i) ∈ blocked := by
  induction parts generalizing testHost try_ with
  | nil =>
    rw [matchLoop]
    by_cases h : testHost ∈ blocked
    · simp [h]
    · simp only [h, if_false, List.drop_nil]
      constructor
      · intro hfalse; cases hfalse
      · rintro (hc | ⟨i, _, hlen, _⟩)
        · exact hc.elim
        · simp at hlen
  | cons p parts' ih =>
    rw [matchLoop]
    by_cases h : testHost ∈ blocked
    · simp [h]
    · simp only [h, if_false]
      by_cases hlen : parts'.length < 3
      · simp only [hlen, if_true]
        constructor
        · intro hfalse; cases hfalse
        · rintro (hc | ⟨i, hi, hdlen, _⟩)
          · exact hc.elim
          · rcases Nat.exists_eq_add_of_le hi with ⟨j, rfl⟩
            rw [Nat.add_comm, List.drop_succ_cons, List.length_drop] at hdlen
            omega
      · simp only [hlen, if_false, ih]
        constructor
        · rintro (hc | ⟨j, hj, hdlen, hmem⟩)
          · exact Or.inr ⟨1, Nat.le_refl 1, by
              rw [List.drop_succ_cons, List.drop_zero]; omega, by
              rwa [List.drop_succ_cons, List.drop_zero]⟩
          · exact Or.inr ⟨j + 1, Nat.le_add_left 1 j, by
              rwa [List.drop_succ_cons], by rwa [List.drop_succ_cons]⟩
        · rintro (hc | ⟨i, hi, hdlen, hmem⟩)
          · exact hc.elim
          · rcases Nat.exists_eq_add_of_le hi with ⟨j, rfl⟩
            rw [Nat.add_comm, List.drop_succ_cons] at hdlen hmem
            rcases Nat.eq_zero_or_pos j with rfl | hj
            · rw [List.drop_zero] at hmem
              exact Or.inl hmem
            · exact Or.inr ⟨j, hj, hdlen, hmem⟩

/-- C1 counterexample: with BlockSet `{"b.c."}` and query `"a.b.c."`,
the matcher blocks (it strips down to the 2-label suffix `"b.c."` and
finds it), while the claim's predicate — the domain itself, or a suffix
with at least 3 labels (at least 4 split parts, the trailing empty part
included), is listed — is false at this input.  The code's floor is
`len(parts) < 3` counting the trailing empty part, i.e. suffixes with
only 2 real labels are still tested. -/
theorem c1_counterexample :
    (isBlocked [bytesOfAscii "b.c."] (bytesOfAscii "a.b.c.")).1 = true ∧
      ¬(bytesOfAscii "a.b.c." ∈ [bytesOfAscii "b.c."] ∨
        ∃ i, 4 ≤ ((splitDot (bytesOfAscii "a.b.c.")).drop i).length ∧
          joinDot ((splitDot (bytesOfAscii "a.b.c.")).drop i)
            ∈ [bytesOfAscii "b.c."]) := by
  constructor
  · decide
  · rintro (hmem | ⟨i, hlen, hmem⟩)
    · exact absurd hmem (by decide)
    · have hs : splitDot (bytesOfAscii "a.b.c.") = [[97], [98], [99], []] := by
        decide
      rw [hs, List.length_drop] at hlen
      have hi : i = 0 := by simp at hlen; omega
      rw [hs, hi, List.drop_zero] at hmem
      exact absurd hmem (by decide)

/-- C1 (amended): the matcher tests the full domain and then successively
strips the leftmost label, but the floor is `len(parts) < 3` counting the
empty part produced by the trailing dot, so proper suffixes down to 2 real
labels (3 split parts) are still tested: `isBlocked` returns true if and
only if the domain itself is in the BlockSet, or the join of some tail of
its split parts that retains at least 3 parts (at least 2 real labels) is
in the BlockSet.  Suffixes below that floor are never tested. -/
theorem c1_amended_iff (blocked : List (List Nat)) (host : List Nat) :
    (isBlocked blocked host).1 = true ↔
      host ∈ blocked ∨
        ∃ i, 1 ≤ i ∧ 3 ≤ ((splitDot host).drop i).length ∧
          joinDot ((splitDot host).drop i) ∈ blocked :=
  matchLoop_iff blocked (splitDot host) host 1

/-- C8: a domain present verbatim in the BlockSet is blocked on the very
first membership test: the matcher returns `true` with the `try` counter
still at its initial value 1, i.e. zero stripping iterations were
performed. -/
theorem c8_verbatim_hit (blocked : List (List Nat)) (host : List Nat)
    (h : host ∈ blocked) : isBlocked blocked host = (true, 1) := by
  rw [isBlocked, matchLoop.eq_def]
  simp [h]

/-- C8 witness at a concrete blocklist and domain. -/
theorem c8_verbatim_hit_witness :
    isBlocked [bytesOfAscii "ads.example.com."] (bytesOfAscii "ads.example.com.")
      = (true, 1) :=
  c8_verbatim_hit _ _ (by decide)

/-! ### Question-name decoding (main.go lines 242-251)

The Go loop is

```
for {
    length := int8(msg[offset])
    if length == 0 {
        break
    }
    offset++
    domain.WriteString(string(msg[offset : offset+int(length)]))
    domain.WriteString(".")
    offset += int(length)
}
```

There is no bounds checking: `msg[offset]` with `offset >= len(msg)` is an
index-out-of-range runtime panic, and a length byte `>= 0x80` becomes a
negative `int8`, so the slice expression panics; a slice end past
`len(msg)` also panics.  All three runtime panics are modelled by `oob`.
-/

/-- Result of the name-decoding loop: either the accumulated dotted domain
bytes together with the offset of the terminating zero byte, or a Go
runtime panic from an out-of-range index or slice. -/
inductive NameDecode where
  | ok (domainBytes : List Nat) (endOffset : Nat)
  | oob
deriving DecidableEq

/-- The decoding loop, structural on an explicit step budget.  Each
recursive call strictly increases `offset` by at least 2 while keeping it
at most `msg.length`, so a budget of `msg.length + 1` (as passed by
`decodeQuestionName`) can never run out; the budget-exhausted branch is
unreachable from that entry point. -/
def decodeName (msg : List Nat) : Nat → Nat → List Nat → NameDecode
  | 0, _, _ => .oob
  | fuel + 1, offset, acc =>
    match msg[offset]? with
    | none => .oob
    | some b =>
      if b % 256 = 0 then .ok acc offset
      else if 128 ≤ b % 256 then .oob
      else if offset + 1 + b % 256 ≤ msg.length then
        decodeName msg fuel (offset + 1 + b % 256)
          (acc ++ (msg.drop (offset + 1)).take (b % 256) ++ [46])
      else .oob

/-- Decoding the question name of a client message, starting at the fixed
offset 12 with an empty `bytes.Buffer` (main.go lines 235, 242-251). -/
def decodeQuestionName (msg : List Nat) : NameDecode :=
  decodeName msg (msg.length + 1) 12 []

/-! ### Forged answer construction (main.go lines 65, 121, 275-280) -/

/-- The constant resource-record template of main.go line 65:
type A (0x0001), class IN (0x0001), TTL 0xffffffff, data length 0x0004.
At startup the 4 bytes of the proxy IPv4 address are appended to it
(line 121); theorems take that address as a parameter `sink`. -/
def answerTemplate : List Nat := [0, 1, 0, 1, 255, 255, 255, 255, 0, 4]

/-- The blocked-path rewrite of main.go lines 275-280: set byte 2 to 129
(0x81, response + recursion available), byte 3 to 128 (0x80), byte 7 to 1
(answer counter), then append `msg[12 : 12+1+len(host)]` followed by the
`answer` bytes. -/
def forgeResponse (msg : List Nat) (host : List Nat) (ans : List Nat) :
    List Nat :=
  let m := ((msg.set 2 129).set 3 128).set 7 1
  m ++ (m.drop 12).take (1 + host.length) ++ ans

/-! ### The query handler (main.go lines 225-311)

`handleDNS` is modelled as a function from the received message and sender
to a `HandleStep` describing which terminal path the handler took; the
upstream `Write` outcome is an input (`writeFails`).  Client addresses are
abstracted to `Nat`.  Side effects on the correlation table and the
sockets are read off the step by `handleTableAfter`, `clientSend`,
`upstreamSend` and `armsTimeout`.
-/

/-- The `query` struct of main.go lines 21-24. -/
structure Query where
  From : Nat
  Host : List Nat
deriving DecidableEq

/-- Terminal outcomes of one `handleDNS` invocation. -/
inductive HandleStep where
  /-- a Go runtime index-out-of-range panic: an out-of-bounds access -/
  | panic
  /-- question counter byte not 1: logged and dropped (lines 237-240) -/
  | dropBadCount (count : Nat)
  /-- blocked: forged response written to the client (lines 275-281) -/
  | sendForged (resp : List Nat) (toAddr : Nat)
  /-- not blocked: entry inserted, message written upstream, timeout armed
  (lines 294-310) -/
  | forward (id : Nat) (q : Query) (fwd : List Nat)
  /-- not blocked but the upstream write failed: the entry just inserted
  is deleted and the handler returns (lines 296-301) -/
  | forwardFailed (id : Nat) (q : Query)
deriving DecidableEq

/-- One run of `handleDNS` (main.go lines 225-311).  The reads of
`msg[0]`, `msg[1]` (line 229) and `msg[5]` (line 234) happen before any
length validation, so a message shorter than 6 bytes panics; the question
counter is only the single byte `msg[5]`. -/
def handleDNS (blockedSet : List (List Nat)) (ans : List Nat)
    (writeFails : Bool) (msg : List Nat) (fromAddr : Nat) : HandleStep :=
  match msg[0]?, msg[1]? with
  | some b0, some b1 =>
    let id := (b0 % 256) * 256 + (b1 % 256)
    match msg[5]? with
    | some b5 =>
      let count := b5 % 256
      if count ≠ 1 then .dropBadCount count
      else
        match decodeQuestionName msg with
        | .oob => .panic
        | .ok host _ =>
          if (isBlocked blockedSet host).1 then
            .sendForged (forgeResponse msg host ans) fromAddr
          else if writeFails then .forwardFailed id ⟨fromAddr, host⟩
          else .forward id ⟨fromAddr, host⟩ msg
    | none => .panic
  | _, _ => .panic

/-! ### The correlation table `queries` (main.go lines 76, 142)

A Go map from transaction id to `*query`; map semantics (assignment
overwrites, delete removes, lookup is partial) are modelled by a function
`Nat → Option Query`.
-/

/-- The correlation table: Go `map[int]*query`. -/
def Table : Type := Nat → Option Query

/-- The freshly made empty table (main.go line 142). -/
def temptyTable : Table := fun _ => none

/-- Go map assignment `queries[id] = q`: overwrites any previous entry. -/
def tinsert (t : Table) (id : Nat) (q : Query) : Table :=
  fun k => if k = id then some q else t k

/-- Go `delete(queries, id)`. -/
def terase (t : Table) (id : Nat) : Table :=
  fun k => if k = id then none else t k

/-- The datagram (if any) the handler writes back to a client. -/
def clientSend : HandleStep → Option (List Nat × Nat)
  | .sendForged resp toAddr => some (resp, toAddr)
  | _ => none

/-- The datagram (if any) the handler successfully writes upstream. -/
def upstreamSend : HandleStep → Option (List Nat)
  | .forward _ _ fwd => some fwd
  | _ => none

/-- Whether the handler spawned the timeout goroutine (main.go line 302);
on the failed-write path it returns at line 300, before spawning it. -/
def armsTimeout : HandleStep → Bool
  | .forward _ _ _ => true
  | _ => false

/-- Effect of one handler run on the correlation table: the forward path
inserts (line 294); the failed-write path inserts and then deletes
(lines 294, 299); every other path leaves the table untouched. -/
def handleTableAfter (t : Table) : HandleStep → Table
  | .forward id q _ => tinsert t id q
  | .forwardFailed id q => terase (tinsert t id q) id
  | _ => t

/-! ### The upstream listener (main.go lines 194-221) and the timeout
goroutine (main.go lines 302-310) -/

/-- Transaction id extraction of main.go line 206:
`int(uint16(buf[0])<<8 + uint16(buf[1]))`, big-endian from the first two
bytes. -/
def upstreamId (buf : List Nat) : Nat :=
  (buf.getD 0 0 % 256) * 256 + (buf.getD 1 0 % 256)

/-- Per-datagram step of the upstream listener (lines 206-219): if the
extracted id has an entry, delete it and write the raw bytes to the
stored client address; otherwise do nothing.  Result: the table
afterwards, and the datagram/address written to the proxy socket (if
any). -/
def upstreamStep (t : Table) (buf : List Nat) : Table × Option (List Nat × Nat) :=
  match t (upstreamId buf) with
  | some q => (terase t (upstreamId buf), some (buf, q.From))
  | none => (t, none)

/-- The body of the timeout goroutine after its sleep (lines 304-308):
if the entry for the id is still present, count a timeout and delete it;
otherwise do nothing.  Result: the table afterwards, whether a timeout
was recorded, and the datagram sent to the client — this code path
contains no write to the proxy socket, hence always `none`. -/
def timeoutStep (t : Table) (id : Nat) : Table × Bool × Option (List Nat × Nat) :=
  match t id with
  | some _ => (terase t id, true, none)
  | none => (t, false, none)

/-! ### Interleaving model of the shared `queries` map for a single id

Both the upstream listener (lines 207-209) and the timeout goroutine
(lines 304-307) run `if q, ok := queries[id]; ok { ...; delete(...) }` on
the shared map with no synchronization.  Each path is modelled as two
separately scheduled steps at map-operation granularity: its lookup
(recording the `ok` it observed) and its subsequent action (delete plus
relay, or delete plus timeout count, performed iff its own lookup had
succeeded).  A schedule is a list of such events.
-/

/-- State of one id's entry and the two racing code paths. -/
structure RaceState where
  /-- whether `queries` holds an entry for the id -/
  present : Bool
  /-- whether the upstream path performed its relay (lines 208-218) -/
  relayed : Bool
  /-- whether the timeout path counted and deleted (lines 305-307) -/
  timedOut : Bool
  /-- the `ok` the upstream path observed at line 207, once it looked -/
  ansSaw : Option Bool
  /-- the `ok` the timeout path observed at line 304, once it looked -/
  tmoSaw : Option Bool
deriving DecidableEq

/-- Scheduled events: each path's map lookup and its conditional
delete-and-act. -/
inductive RaceEv where
  | ansLookup
  | ansAct
  | tmoLookup
  | tmoAct
deriving DecidableEq

/-- Effect of one event on the state. -/
def raceStep (s : RaceState) : RaceEv → RaceState
  | .ansLookup => { s with ansSaw := some s.present }
  | .ansAct =>
    if s.ansSaw = some true then { s with present := false, relayed := true }
    else s
  | .tmoLookup => { s with tmoSaw := some s.present }
  | .tmoAct =>
    if s.tmoSaw = some true then { s with present := false, timedOut := true }
    else s

/-- Run a schedule from a state. -/
def raceRun (s : RaceState) (evs : List RaceEv) : RaceState :=
  evs.foldl raceStep s

/-- Initial state: the pending query was inserted, neither path has run. -/
def raceInit : RaceState :=
  { present := true, relayed := false, timedOut := false,
    ansSaw := none, tmoSaw := none }

/-- Length invariant of the decoding loop: a successful decode ends at the
offset of the terminating zero byte, and every iteration consumes exactly
one byte more of the message than it appends to the domain buffer (the
length byte versus the appended dot), so `endOffset + |acc at entry| =
entry offset + |domain|`. -/
theorem decodeName_ok_length (msg : List Nat) :
    ∀ fuel offset acc host e,
      decodeName msg fuel offset acc = .ok host e →
      e + acc.length = offset + host.length := by
  intro fuel
  induction fuel with
  | zero =>
    intro offset acc host e h
    simp [decodeName] at h
  | succ fuel ih =>
    intro offset acc host e h
    rw [decodeName] at h
    cases hb : msg[offset]? with
    | none => rw [hb] at h; cases h
    | some b =>
      rw [hb] at h
      dsimp only at h
      by_cases h0 : b % 256 = 0
      · rw [if_pos h0] at h
        injection h with h1 h2
        subst h1; subst h2
        omega
      · rw [if_neg h0] at h
        by_cases h128 : 128 ≤ b % 256
        · rw [if_pos h128] at h; cases h
        · rw [if_neg h128] at h
          by_cases hle : offset + 1 + b % 256 ≤ msg.length
          · rw [if_pos hle] at h
            have hrec := ih _ _ _ _ h
            have hlab : ((msg.drop (offset + 1)).take (b % 256)).length
                = b % 256 := by
              rw [List.length_take, List.length_drop]
              omega
            simp only [List.length_append, hlab, List.length_cons,
              List.length_nil] at hrec
            omega
          · rw [if_neg hle] at h; cases h

/-- C3: for a message whose question name decodes successfully (ending at
the zero byte at offset `e`), the forged response is the original message
with byte 2 set to 0x81 (129), byte 3 set to 0x80 (128) and byte 7 (the
answer counter) set to 1, followed by the original encoded question-name
bytes `msg[12..e]` copied byte-for-byte from the input — including the
terminating zero byte at offset `e` — and then the constant
type/class/TTL/length template with the sinkhole IPv4 address.  In
particular the code's slice `msg[12 : 12+1+len(host)]` is exactly the
encoded name region, because `e = 12 + len(host)`. -/
theorem c3_forged_response (msg host : List Nat) (e : Nat) (sink : List Nat)
    (h : decodeQuestionName msg = .ok host e) :
    e = 12 + host.length ∧
      forgeResponse msg host (answerTemplate ++ sink) =
        ((msg.set 2 129).set 3 128).set 7 1
          ++ (msg.drop 12).take (e - 12 + 1)
          ++ (answerTemplate ++ sink) := by
  have he : e = 12 + host.length := by
    have hinv := decodeName_ok_length msg (msg.length + 1) 12 [] host e h
    simpa using hinv
  refine ⟨he, ?_⟩
  simp only [forgeResponse]
  have hdrop : (((msg.set 2 129).set 3 128).set 7 1).drop 12 = msg.drop 12 := by
    rw [List.drop_set_of_lt _ _ (by omega), List.drop_set_of_lt _ _ (by omega),
      List.drop_set_of_lt _ _ (by omega)]
  rw [hdrop, he]
  have htake : 12 + host.length - 12 + 1 = 1 + host.length := by omega
  rw [htake]

/-- C3 witness: a concrete 17-byte query for `a.b.` (header of 12 bytes,
then the encoded name `1 a 1 b 0`), with sinkhole address 10.0.0.1. -/
theorem c3_forged_response_witness :
    (16 : Nat) = 12 + ([97, 46, 98, 46] : List Nat).length ∧
      forgeResponse [0, 1, 1, 32, 0, 1, 0, 0, 0, 0, 0, 0, 1, 97, 1, 98, 0]
          [97, 46, 98, 46] (answerTemplate ++ [10, 0, 0, 1]) =
        (([0, 1, 1, 32, 0, 1, 0, 0, 0, 0, 0, 0, 1, 97, 1, 98, 0].set 2 129).set
              3 128).set 7 1
          ++ ([0, 1, 1, 32, 0, 1, 0, 0, 0, 0, 0, 0, 1, 97, 1, 98,
                0].drop 12).take (16 - 12 + 1)
          ++ (answerTemplate ++ [10, 0, 0, 1]) :=
  c3_forged_response [0, 1, 1, 32, 0, 1, 0, 0, 0, 0, 0, 0, 1, 97, 1, 98, 0]
    [97, 46, 98, 46] 16 [10, 0, 0, 1] (by decide)

/-- C2 counterexample: the 6-byte datagram `[0,0,0,0,0,1]` is shorter than
the 12-byte DNS header, yet `handleDNS` does not drop it with a
`MalformedMessage`-style check: its question-counter byte is 1, so the
name-decoding loop reads `msg[12]`, which is out of bounds — a Go runtime
panic, modelled by the `panic` outcome.  There is no graceful drop and the
claimed absence of out-of-bounds accesses is false. -/
theorem c2_counterexample :
    ([0, 0, 0, 0, 0, 1] : List Nat).length < 12 ∧
      handleDNS [] [] false [0, 0, 0, 0, 0, 1] 0 = .panic := by
  constructor
  · decide
  · decide

/-- C2 (amended): `handleDNS` performs no length validation at all.  A
datagram shorter than 6 bytes makes one of the unconditional header reads
`msg[0]`, `msg[1]`, `msg[5]` out of bounds, and a datagram whose
question-counter byte is 1 but whose name decoding runs past the buffer
end (in particular every datagram of fewer than 13 bytes with that
counter byte) makes the decode loop's access out of bounds; both are
runtime panics, not logged drops.  No `MalformedMessage` failure mode
exists in the code. -/
theorem c2_amended_oob (blockedSet : List (List Nat)) (ans : List Nat)
    (writeFails : Bool) (msg : List Nat) (fromAddr : Nat) :
    (msg.length < 6 →
      handleDNS blockedSet ans writeFails msg fromAddr = .panic) ∧
    (∀ b5, msg[5]? = some b5 → b5 % 256 = 1 →
      decodeQuestionName msg = .oob →
      handleDNS blockedSet ans writeFails msg fromAddr = .panic) := by
  constructor
  · intro hlen
    have h5 : msg[5]? = none := List.getElem?_eq_none (by omega)
    rcases h0 : msg[0]? with _ | b0 <;> rcases h1 : msg[1]? with _ | b1 <;>
      simp [handleDNS, h0, h1, h5]
  · intro b5 h5 hb5 hdec
    have h5lt : 5 < msg.length := by
      rcases List.getElem?_eq_some.mp h5 with ⟨hlt, _⟩
      exact hlt
    have h0 : msg[0]? = some msg[0] := List.getElem?_eq_getElem (by omega)
    have h1 : msg[1]? = some msg[1] := List.getElem?_eq_getElem (by omega)
    simp [handleDNS, h0, h1, h5, hb5, hdec]

/-- C2 witness: both conjuncts of the amended theorem applied at concrete
datagrams — the empty datagram (header read out of bounds) and the
counterexample datagram (name decode out of bounds). -/
theorem c2_amended_oob_witness :
    handleDNS [] [] false [] 0 = .panic ∧
      handleDNS [] [] false [0, 0, 0, 0, 0, 1] 0 = .panic :=
  ⟨(c2_amended_oob [] [] false [] 0).1 (by decide),
   (c2_amended_oob [] [] false [0, 0, 0, 0, 0, 1] 0).2 1 (by decide)
     (by decide) (by decide)⟩

/-- Following the claim's words: the question-count header field of a DNS
message read as a big-endian 16-bit integer from bytes 4 and 5, for
comparison with what the code actually checks (the single byte
`msg[5]`). -/
def specQuestionCount16 (msg : List Nat) : Nat :=
  256 * msg.getD 4 0 + msg.getD 5 0

/-- C7 counterexample: a 13-byte datagram whose 16-bit question-count
field is 257 (bytes 4 and 5 are 1 and 1).  The code compares only the low
byte `msg[5]` with 1, so the datagram is not dropped: it is forwarded
upstream with a correlation-table entry created, although its 16-bit
question count is not 1. -/
theorem c7_counterexample :
    specQuestionCount16 [0, 0, 0, 0, 1, 1, 0, 0, 0, 0, 0, 0, 0] = 257 ∧
      handleDNS [] [] false [0, 0, 0, 0, 1, 1, 0, 0, 0, 0, 0, 0, 0] 0 =
        .forward 0 ⟨0, []⟩ [0, 0, 0, 0, 1, 1, 0, 0, 0, 0, 0, 0, 0] := by
  constructor
  · decide
  · decide

/-- C7 (amended): the validation reads only the low byte of the
question-count field: for every datagram long enough for the header reads
whose byte 5 is not 1, the handler logs and drops it — no reply to the
client, nothing forwarded upstream, no timeout armed, and the correlation
table unchanged.  (Byte 4, the high byte of the 16-bit field, is never
inspected.) -/
theorem c7_amended_drop (blockedSet : List (List Nat)) (ans : List Nat)
    (writeFails : Bool) (msg : List Nat) (fromAddr : Nat) (t : Table)
    (b5 : Nat) (h5 : msg[5]? = some b5) (hb5 : b5 % 256 ≠ 1) :
    handleDNS blockedSet ans writeFails msg fromAddr =
        .dropBadCount (b5 % 256) ∧
      clientSend (handleDNS blockedSet ans writeFails msg fromAddr) = none ∧
      upstreamSend (handleDNS blockedSet ans writeFails msg fromAddr) = none ∧
      armsTimeout (handleDNS blockedSet ans writeFails msg fromAddr) = false ∧
      handleTableAfter t (handleDNS blockedSet ans writeFails msg fromAddr)
        = t := by
  have h5lt : 5 < msg.length := by
    rcases List.getElem?_eq_some.mp h5 with ⟨hlt, _⟩
    exact hlt
  have h0 : msg[0]? = some msg[0] := List.getElem?_eq_getElem (by omega)
  have h1 : msg[1]? = some msg[1] := List.getElem?_eq_getElem (by omega)
  have hstep : handleDNS blockedSet ans writeFails msg fromAddr =
      .dropBadCount (b5 % 256) := by
    simp [handleDNS, h0, h1, h5, hb5]
  refine ⟨hstep, ?_, ?_, ?_, ?_⟩ <;> rw [hstep] <;> rfl

/-- C7 witness: the amended theorem at a concrete 6-byte datagram with
question-counter byte 2. -/
theorem c7_amended_drop_witness :
    handleDNS [] [] false [0, 0, 0, 0, 0, 2] 0 = .dropBadCount 2 ∧
      clientSend (handleDNS [] [] false [0, 0, 0, 0, 0, 2] 0) = none ∧
      upstreamSend (handleDNS [] [] false [0, 0, 0, 0, 0, 2] 0) = none ∧
      armsTimeout (handleDNS [] [] false [0, 0, 0, 0, 0, 2] 0) = false ∧
      handleTableAfter temptyTable (handleDNS [] [] false [0, 0, 0, 0, 0, 2] 0)
        = temptyTable :=
  c7_amended_drop [] [] false [0, 0, 0, 0, 0, 2] 0 temptyTable 2 (by decide)
    (by decide)

/-- C4: for a datagram of at least two bytes received on the upstream
socket, the transaction id is the big-endian 16-bit integer formed from
its first two bytes; if the correlation table has an entry for that id,
the raw datagram bytes are forwarded verbatim to the stored client
address and the entry is removed, and if it has none the datagram is
discarded: nothing is sent and the table is unchanged. -/
theorem c4_upstream_relay (t : Table) (b0 b1 : Nat) (rest : List Nat) :
    upstreamId (b0 :: b1 :: rest) = (b0 % 256) * 256 + b1 % 256 ∧
      (∀ q, t (upstreamId (b0 :: b1 :: rest)) = some q →
        upstreamStep t (b0 :: b1 :: rest) =
          (terase t (upstreamId (b0 :: b1 :: rest)),
            some (b0 :: b1 :: rest, q.From))) ∧
      (t (upstreamId (b0 :: b1 :: rest)) = none →
        upstreamStep t (b0 :: b1 :: rest) = (t, none)) := by
  refine ⟨rfl, ?_, ?_⟩
  · intro q hq
    simp [upstreamStep, hq]
  · intro hq
    simp [upstreamStep, hq]

/-- C4 witness: a table holding id 5 for client 9, and the datagram
`[0, 5, 42]`, whose first two bytes give id 5: the bytes are relayed to
client 9 and the entry is removed. -/
theorem c4_upstream_relay_witness :
    upstreamStep (tinsert temptyTable 5 ⟨9, []⟩) [0, 5, 42] =
      (terase (tinsert temptyTable 5 ⟨9, []⟩) (upstreamId [0, 5, 42]),
        some ([0, 5, 42], 9)) :=
  (c4_upstream_relay (tinsert temptyTable 5 ⟨9, []⟩) 0 5 [42]).2.1 ⟨9, []⟩ rfl

/-- C5: the exactly-once lifecycle fails on the code.  The upstream path
(lines 207-209) and the timeout goroutine (lines 304-307) each run a
non-atomic lookup followed by a delete on the unsynchronized shared map,
so in the interleaving in which both lookups precede both actions, both
paths see the entry present and both fire: the answer is relayed AND a
timeout is counted and deleted for the same pending query, contradicting
"exactly one of the two deletions occurs, never both". -/
theorem c5_double_fire :
    raceRun raceInit [.ansLookup, .tmoLookup, .ansAct, .tmoAct] =
      { present := false, relayed := true, timedOut := true,
        ansSaw := some true, tmoSaw := some true } := by
  decide

/-- C6: when the timeout goroutine wakes, it removes the entry and counts
a timeout exactly when the entry for the id is still present, and does
nothing when it is already gone; this code path sends no datagram to the
client in either case. -/
theorem c6_timeout_check (t : Table) (id : Nat) :
    (∀ q, t id = some q → timeoutStep t id = (terase t id, true, none)) ∧
      (t id = none → timeoutStep t id = (t, false, none)) ∧
      (timeoutStep t id).2.2 = none := by
  refine ⟨?_, ?_, ?_⟩
  · intro q hq
    simp [timeoutStep, hq]
  · intro hq
    simp [timeoutStep, hq]
  · cases hq : t id <;> simp [timeoutStep, hq]

/-- C6 witness: a table still holding id 3 for client 9 when the timer
fires: the entry is removed, the timeout is recorded, nothing is sent. -/
theorem c6_timeout_check_witness :
    timeoutStep (tinsert temptyTable 3 ⟨9, []⟩) 3 =
      (terase (tinsert temptyTable 3 ⟨9, []⟩) 3, true, none) :=
  (c6_timeout_check (tinsert temptyTable 3 ⟨9, []⟩) 3).1 ⟨9, []⟩ rfl

/-- C9: the correlation-table operations are not safe under concurrent
callers.  The map is accessed from the query handlers, the upstream
listener and the timer goroutines with no synchronization; already at
lookup/delete interleaving granularity, the schedule in which the timer's
lookup and the listener's lookup both precede the two deletes makes both
paths consume the same single pending entry — the entry is handled (and
deleted) twice, once by the relay and once by the timeout. -/
theorem c9_double_handling :
    raceRun raceInit [.tmoLookup, .ansLookup, .tmoAct, .ansAct] =
      { present := false, relayed := true, timedOut := true,
        ansSaw := some true, tmoSaw := some true } := by
  decide

/-- C10 counterexample: the handler's forward-failure cleanup does not
restore the table to its prior state when an entry for the same id
already existed: the insert at line 294 overwrites it and the delete at
line 299 then removes the id entirely, losing the pre-existing entry. -/
theorem c10_counterexample :
    handleTableAfter (tinsert temptyTable 7 ⟨1, []⟩)
        (.forwardFailed 7 ⟨2, bytesOfAscii "example.org."⟩) ≠
      tinsert temptyTable 7 ⟨1, []⟩ := by
  intro h
  have h7 := congrFun h 7
  simp [handleTableAfter, terase, tinsert, temptyTable] at h7

/-- C10 (amended): on forward failure the handler deletes the entry it
just inserted before returning and never arms the timeout, so no entry
for that id remains awaiting a timeout; the table equals its prior state
whenever it held no entry for that id before the query was handled (a
pre-existing same-id entry is overwritten and then deleted, not
restored). -/
theorem c10_amended_table (t : Table) (id : Nat) (q : Query) :
    handleTableAfter t (.forwardFailed id q) id = none ∧
      armsTimeout (.forwardFailed id q) = false ∧
      (t id = none → handleTableAfter t (.forwardFailed id q) = t) := by
  refine ⟨by simp [handleTableAfter, terase], rfl, ?_⟩
  intro h
  funext k
  by_cases hk : k = id
  · subst hk
    simp [handleTableAfter, terase, h]
  · simp [handleTableAfter, terase, tinsert, hk]

/-- C10 witness: the amended theorem at the empty table: after a failed
forward of id 7 the table is the empty table again. -/
theorem c10_amended_table_witness :
    handleTableAfter temptyTable (.forwardFailed 7 ⟨1, []⟩) = temptyTable :=
  (c10_amended_table temptyTable 7 ⟨1, []⟩).2.2 rfl

end Adhole
